import Mathlib

/-!
A verification development for the freight-dispatch Telegram bot in
`src/bot.py` (repository `odilbe01/Reminder`).

The shallow embedding below translates the pure computational core of
`bot.py` into executable Lean definitions:

* Python `Decimal` values (exact fixed-point decimals) are modelled by
  `PyDecimal`, an unreduced scaled integer `units / 10 ^ scale`.  All
  arithmetic that the bot performs on `Decimal` (addition, multiplication,
  negation, half-up quantization to two fractional digits) is exact and is
  reproduced exactly.  The single division in the pipeline
  (`new_rate / miles` followed by `.quantize(Decimal('0.01'))`) is modelled
  as exact rational division fused with the half-up quantization
  (`PyDecimal.divQuantize2`); Python's 28-significant-digit context is
  abstracted away, which agrees with the source on every value whose exact
  quotient does not need more than 28 significant digits to decide the
  2-digit rounding.
* Strings are processed as `List Char`; every regular expression of the
  source is reimplemented as a character-level matcher that follows the
  regex literally (the concrete patterns are quoted in the doc comments).
* `unicodedata.normalize("NFKD", ·)` followed by the ASCII filter
  (`ascii_fold`) is modelled on the character repertoire the bot's message
  templates use: ASCII characters (NFKD-stable, kept) plus the mathematical
  sans-serif bold letters (NFKD-decomposed to plain letters); every other
  non-ASCII character used by the templates (emoji) has no decomposition
  and is dropped by the ASCII filter.
* Aware `datetime` instants are modelled as UTC epoch seconds (`Int`);
  timezone-aware arithmetic is modelled with fixed zone offsets, under
  which Python's wall-clock `datetime - timedelta` followed by
  `.astimezone(timezone.utc)` is exactly subtraction of seconds.
* `parse_pu_datetime` is modelled on its stdlib fallback path
  (`du_parser = None`, lines 288-340 of `bot.py`), which is the code that
  implements the four documented literal grammars; the optional
  `dateutil` fuzzy path is not modelled.
* The process-wide dictionaries `PENDING_PU`, `PENDING_OFFSETS` and
  `SCHEDULED` are modelled as total functions from the key type
  `(chat_id, origin_msg_id)` with the dictionaries' read-defaults
  (`None` / empty set); `SCHEDULED` stores the fire instant itself rather
  than its `isoformat` string (ISO rendering is injective on instants).
  The `sel` and `sub` branches of `on_callback` become the pure state
  transformers `onSel` and `onSub`.
-/

/-! ## Character and string utilities -/

/-- Python `\d` on ASCII input: a decimal digit. -/
def isDigitC (c : Char) : Bool := decide ('0' ≤ c) && decide (c ≤ '9')

/-- Python `\s`: the six ASCII whitespace characters matched by `re`'s
`\s` on the bot's ASCII input. -/
def isSpaceC (c : Char) : Bool :=
  c = ' ' || c = '\t' || c = '\n' || c = '\r' || c = '\x0b' || c = '\x0c'

/-- `[A-Za-z]`. -/
def isAlphaC (c : Char) : Bool :=
  (decide ('A' ≤ c) && decide (c ≤ 'Z')) || (decide ('a' ≤ c) && decide (c ≤ 'z'))

/-- Python `\w` restricted to the character repertoire of the bot's
messages: `[A-Za-z0-9_]` plus the mathematical sans-serif bold letters
(which are Unicode letters and hence word characters in `re`). -/
def isWordC (c : Char) : Bool :=
  isAlphaC c || isDigitC c || c = '_' ||
  (decide (0x1D5D4 ≤ c.toNat) && decide (c.toNat ≤ 0x1D607))

/-- ASCII lower-casing of a character; characters without an ASCII upper
case (including the mathematical bold letters, which have no Unicode
lower-case mapping) are unchanged, as under Python `str.lower` on the
bot's repertoire. -/
def lowerC (c : Char) : Char :=
  if decide ('A' ≤ c) && decide (c ≤ 'Z') then Char.ofNat (c.toNat + 32) else c

/-- ASCII upper-casing of a character (Python `str.upper` on ASCII). -/
def upperC (c : Char) : Char :=
  if decide ('a' ≤ c) && decide (c ≤ 'z') then Char.ofNat (c.toNat - 32) else c

def lowerAscii (cs : List Char) : List Char := cs.map lowerC

def upperAscii (cs : List Char) : List Char := cs.map upperC

/-- NFKD decomposition restricted to one character of the bot's message
repertoire: ASCII is NFKD-stable; the mathematical sans-serif bold
capital letters `U+1D5D4..U+1D5ED` decompose to `A..Z` and the bold small
letters `U+1D5EE..U+1D607` to `a..z`; the remaining non-ASCII characters
of the templates (emoji) have no decomposition and are removed by the
`ord(ch) < 128` filter of `ascii_fold`. -/
def foldChar (c : Char) : List Char :=
  if c.toNat < 128 then [c]
  else if decide (0x1D5D4 ≤ c.toNat) && decide (c.toNat ≤ 0x1D5ED) then
    [Char.ofNat ('A'.toNat + (c.toNat - 0x1D5D4))]
  else if decide (0x1D5EE ≤ c.toNat) && decide (c.toNat ≤ 0x1D607) then
    [Char.ofNat ('a'.toNat + (c.toNat - 0x1D5EE))]
  else []

/-- `ascii_fold` (bot.py lines 78-82): NFKD-normalize, then keep only
code points below 128. -/
def ascii_fold (cs : List Char) : List Char := cs.flatMap foldChar

/-- Python `str.strip()` (ASCII whitespace suffices for the bot's input). -/
def stripPy (cs : List Char) : List Char :=
  ((cs.dropWhile isSpaceC).reverse.dropWhile isSpaceC).reverse

/-- Python `str.splitlines()` for texts whose only line terminator is
`'\n'`: split at newlines, a trailing newline producing no extra empty
line. -/
def splitNl : List Char → List (List Char)
  | [] => [[]]
  | '\n' :: rest => [] :: splitNl rest
  | c :: rest =>
    match splitNl rest with
    | [] => [[c]]
    | l :: ls => (c :: l) :: ls

def splitlinesPy (cs : List Char) : List (List Char) :=
  if cs = [] then []
  else if cs.getLast? = some '\n' then (splitNl cs).dropLast
  else splitNl cs

/-- `"\n".join(lines)` and `"\n\n".join(chunks)`. -/
def joinWith (sep : List Char) : List (List Char) → List Char
  | [] => []
  | [l] => l
  | l :: ls => l ++ sep ++ joinWith sep ls

/-- Substring containment, Python's `needle in hay`. -/
def containsSub (needle : List Char) : List Char → Bool
  | [] => needle.isEmpty
  | c :: t => needle.isPrefixOf (c :: t) || containsSub needle t

/-- In-place update of the `i`-th element of a list (Python
`lines[i] = x` for a valid index; out-of-range indices leave the list
unchanged, a case the source never reaches). -/
def setAt (i : Nat) (x : α) : List α → List α
  | [] => []
  | a :: l =>
    match i with
    | 0 => x :: l
    | j + 1 => a :: setAt j x l

/-- Python `list.insert(i, x)` (appends when `i ≥ len`). -/
def insertAt (i : Nat) (x : α) : List α → List α
  | l =>
    match i, l with
    | 0, l => x :: l
    | _ + 1, [] => [x]
    | j + 1, a :: l => a :: insertAt j x l

/-- `lines[i]` read with an irrelevant default (the source only reads
indices produced by its own scan of the same list). -/
def lineAt (lines : List (List Char)) (i : Nat) : List Char :=
  lines[i]?.getD []

/-! ## Exact decimals (`decimal.Decimal` with `ROUND_HALF_UP`) -/

/-- An exact decimal number `units / 10 ^ scale`, the model of a Python
`Decimal` value (the representation is not normalized; all observations
the bot makes go through comparisons or 2-digit quantization, which are
representation-independent). -/
structure PyDecimal where
  units : Int
  scale : Nat
deriving DecidableEq, Repr

/-- Round `p / q` (with `q > 0`) to the nearest integer, ties away from
zero: `decimal.ROUND_HALF_UP`. -/
def halfUpDiv (p q : Int) : Int :=
  if 0 ≤ p then (2 * p + q) / (2 * q) else -((2 * (-p) + q) / (2 * q))

namespace PyDecimal

def val10 (s : Nat) : Int := (10 : Int) ^ s

def add (a b : PyDecimal) : PyDecimal :=
  ⟨a.units * val10 b.scale + b.units * val10 a.scale, a.scale + b.scale⟩

def mul (a b : PyDecimal) : PyDecimal :=
  ⟨a.units * b.units, a.scale + b.scale⟩

def neg (a : PyDecimal) : PyDecimal := ⟨-a.units, a.scale⟩

def leDec (a b : PyDecimal) : Bool :=
  decide (a.units * val10 b.scale ≤ b.units * val10 a.scale)

def isZero (a : PyDecimal) : Bool := a.units = 0

/-- `x.quantize(Decimal('0.01'), rounding=ROUND_HALF_UP)`. -/
def quantize2 (a : PyDecimal) : PyDecimal :=
  ⟨halfUpDiv (a.units * 100) (val10 a.scale), 2⟩

/-- `(a / b).quantize(Decimal('0.01'), rounding=ROUND_HALF_UP)` with the
division exact (see the header note on the 28-digit context). -/
def divQuantize2 (a b : PyDecimal) : PyDecimal :=
  let p := a.units * val10 b.scale * 100
  let q := b.units * val10 a.scale
  ⟨if q < 0 then halfUpDiv (-p) (-q) else halfUpDiv p q, 2⟩

end PyDecimal

/-- Digits of a decimal string to a number (`int` of a digit run). -/
def natOfDigits (cs : List Char) : Nat :=
  cs.foldl (fun n c => 10 * n + (c.toNat - 48)) 0

/-- `Decimal(s.replace(",", ""))` for a string of shape
`digits[,digits]*(.digits)?`: strip thousands separators, read the
integer and fractional parts exactly. -/
def decOfNumChars (cs : List Char) : PyDecimal :=
  let cs := cs.filter (fun c => c ≠ ',')
  let ip := cs.takeWhile (fun c => c ≠ '.')
  let rest := cs.dropWhile (fun c => c ≠ '.')
  match rest with
  | _ :: fp =>
    ⟨(natOfDigits ip : Int) * PyDecimal.val10 fp.length + (natOfDigits fp : Int), fp.length⟩
  | [] => ⟨(natOfDigits ip : Int), 0⟩

/-- `Decimal(s)` for an optionally signed `digits(.digits)?` string
(the `Add`/`Minus` amount group). -/
def decOfSignedChars (cs : List Char) : PyDecimal :=
  match cs with
  | '-' :: t => (decOfNumChars t).neg
  | '+' :: t => decOfNumChars t
  | _ => decOfNumChars cs

/-- Decimal-string rendering of a quantized (2-fractional-digit) value:
`str(d)` for `d` with exponent -2, as produced by `quantize2`. -/
def centsRender (cents : Int) : List Char :=
  let a := cents.natAbs
  let frac := if a % 100 < 10 then '0' :: (Nat.repr (a % 100)).data else (Nat.repr (a % 100)).data
  (if cents < 0 then ['-'] else []) ++ (Nat.repr (a / 100)).data ++ '.' :: frac

/-- `format_money` (bot.py lines 113-114): `f"${value.quantize(Decimal('0.01'), rounding=ROUND_HALF_UP)}"`. -/
def format_money (d : PyDecimal) : List Char :=
  '$' :: centsRender d.quantize2.units

/-- `_strip_trailing_zeros` (bot.py lines 195-197): quantize to 2 digits,
render, drop a trailing `.00`. -/
def strip_trailing_zeros (d : PyDecimal) : List Char :=
  let s := centsRender d.quantize2.units
  if s.reverse.take 3 = ['0', '0', '.'] then s.dropLast.dropLast.dropLast else s

/-! ## Monetary-amount regex and the Rate Rewriter -/

/-- Result of matching `\$\s*([0-9][\d,]*(?:\.[0-9]{1,4})?)` somewhere in
a line: the text before the match, the whole match (group 0), the number
(group 1) and the text after. -/
structure AmountSpan where
  pre : List Char
  whole : List Char
  num : List Char
  rest : List Char
deriving DecidableEq, Repr

/-- Match `\$\s*([0-9][\d,]*(?:\.[0-9]{1,4})?)` anchored at the head of
`cs`, returning `(whole-match, group 1, rest)`.  The quantifiers are
greedy; no follower in the pattern can match a digit or comma, so greedy
matching without backtracking coincides with the regex. -/
def matchAmountAt (cs : List Char) : Option (List Char × List Char × List Char) :=
  match cs with
  | '$' :: r0 =>
    let sp := r0.takeWhile isSpaceC
    let r1 := r0.dropWhile isSpaceC
    match r1 with
    | c :: r2 =>
      if isDigitC c then
        let dc := r2.takeWhile (fun x => isDigitC x || x = ',')
        let r3 := r2.dropWhile (fun x => isDigitC x || x = ',')
        match r3 with
        | '.' :: r4 =>
          let ds := r4.takeWhile isDigitC
          let r5 := r4.dropWhile isDigitC
          if ds = [] then
            some ('$' :: sp ++ c :: dc, c :: dc, r3)
          else
            let frac := ds.take 4
            let num := c :: dc ++ '.' :: frac
            some ('$' :: sp ++ num, num, ds.drop 4 ++ r5)
        | _ => some ('$' :: sp ++ c :: dc, c :: dc, r3)
      else none
    | [] => none
  | _ => none

/-- `re.search` of the dollar-amount pattern: first position (leftmost)
where it matches. -/
def firstAmountSpan : List Char → Option AmountSpan
  | [] => none
  | c :: t =>
    match matchAmountAt (c :: t) with
    | some (w, n, r) => some ⟨[], w, n, r⟩
    | none =>
      match firstAmountSpan t with
      | some a => some ⟨c :: a.pre, a.whole, a.num, a.rest⟩
      | none => none

/-- `parse_first_dollar_amount` (bot.py lines 93-100). -/
def parse_first_dollar_amount (t : String) : Option PyDecimal :=
  (firstAmountSpan t.data).map (fun a => decOfNumChars a.num)

/-- `re.sub(r"\$\s*[0-9][\d,]*(?:\.[0-9]{1,4})?", amt, line, count=1)`,
the `repl` helper of `update_rate_and_rpm_in_text` (bot.py lines 131-132):
replace the first dollar-amount match, or leave the line unchanged when
there is none. -/
def replFirstAmount (l amt : List Char) : List Char :=
  match firstAmountSpan l with
  | some a => a.pre ++ amt ++ a.rest
  | none => l

/-- A line containing both the `💰` marker and a `$` (the classification
guard of bot.py line 121). -/
def moneyLine (l : List Char) : Bool :=
  containsSub "💰".data l && containsSub "$".data l

/-- `"/mi" in ascii_fold(line).lower()` (bot.py line 122). -/
def perMiFolded (l : List Char) : Bool :=
  containsSub "/mi".data (lowerAscii (ascii_fold l))

/-- The line scan of `update_rate_and_rpm_in_text` (bot.py lines
118-127): first `💰`+`$` line without a folded `/mi` is the rate line,
first one with it is the per-mile line. -/
def classifyGo : Nat → Option Nat → Option Nat → List (List Char) → Option Nat × Option Nat
  | _, r, p, [] => (r, p)
  | i, r, p, l :: ls =>
    if moneyLine l then
      if perMiFolded l then classifyGo (i + 1) r (if p = none then some i else p) ls
      else classifyGo (i + 1) (if r = none then some i else r) p ls
    else classifyGo (i + 1) r p ls

def classifyRateLines (lines : List (List Char)) : Option Nat × Option Nat :=
  classifyGo 0 none none lines

/-- The synthesized per-mile line of bot.py line 145:
`f" 💰 𝗣𝗲𝗿 𝗺𝗶𝗹𝗲: {format_money(new_rpm)}/mi"`. -/
def perMileTemplate (amt : List Char) : List Char :=
  " 💰 𝗣𝗲𝗿 𝗺𝗶𝗹𝗲: ".data ++ amt ++ "/mi".data

/-- `update_rate_and_rpm_in_text` (bot.py lines 116-147). -/
def update_rate_and_rpm_in_text (original : String) (new_rate new_rpm : PyDecimal) :
    Option String :=
  let lines := splitlinesPy original.data
  match classifyRateLines lines with
  | (none, _) => none
  | (some ri, pIdx?) =>
    let lines := setAt ri (replFirstAmount (lineAt lines ri) (format_money new_rate)) lines
    let lines :=
      match pIdx? with
      | some pi =>
        if containsSub "/mi".data (lineAt lines pi) then
          setAt pi (replFirstAmount (lineAt lines pi) (format_money new_rpm)) lines
        else
          setAt pi (replFirstAmount (lineAt lines pi) (format_money new_rpm ++ "/mi".data)) lines
      | none => insertAt (ri + 1) (perMileTemplate (format_money new_rpm)) lines
    some (String.mk (joinWith ['\n'] lines))

/-! ## Trip miles and the `Add`/`Minus` command -/

/-- `\s*mi\b` (case-insensitive): skip whitespace, read `mi`, require a
word boundary after it.  Returns the rest on success. -/
def matchMiTail (cs : List Char) : Option (List Char) :=
  let r := cs.dropWhile isSpaceC
  match r with
  | c1 :: c2 :: rest =>
    if lowerC c1 = 'm' && lowerC c2 = 'i' &&
        (match rest with | [] => true | c :: _ => !isWordC c) then
      some rest
    else none
  | _ => none

/-- Greedy fraction attempts for `(?:\.[0-9]{1,3})?` followed by
`\s*mi\b`: try 3, 2, 1 fractional digits (regex backtracking order),
then no fraction. `base` is the integer/comma part already read, `ds`
the digit run after the dot, `dotRest` the input starting at the dot. -/
def tryMilesFrac (base : List Char) (ds r5 dotRest : List Char) : Option (List Char) :=
  let attempt := fun (k : Nat) =>
    if ds.take k ≠ [] && (matchMiTail (ds.drop k ++ r5)).isSome then
      some (base ++ '.' :: ds.take k)
    else none
  attempt 3 <|> attempt 2 <|> attempt 1 <|>
    (if (matchMiTail dotRest).isSome then some base else none)

/-- Match `(\d+[\d,]*(?:\.[0-9]{1,3})?)\s*mi\b` anchored at the head of
`cs`, returning group 1.  `\d+[\d,]*` is greedy without backtracking
(no follower matches a digit or comma); the optional fraction needs the
regex's backtracking against the `\s*mi\b` follower, reproduced by
`tryMilesFrac`. -/
def matchMilesAt (cs : List Char) : Option (List Char) :=
  match cs with
  | c :: rest =>
    if isDigitC c then
      let dc := rest.takeWhile (fun x => isDigitC x || x = ',')
      let r3 := rest.dropWhile (fun x => isDigitC x || x = ',')
      match r3 with
      | '.' :: r4 =>
        let ds := r4.takeWhile isDigitC
        let r5 := r4.dropWhile isDigitC
        tryMilesFrac (c :: dc) ds r5 r3
      | _ => if (matchMiTail r3).isSome then some (c :: dc) else none
    else none
  | [] => none

/-- Leftmost match of the miles pattern. -/
def searchMilesFrom : List Char → Option (List Char)
  | [] => none
  | c :: t => matchMilesAt (c :: t) <|> searchMilesFrom t

/-- The region after the first `🚛` (the `re.search` of
`🚛[\s\S]*?...` tries `🚛` positions left to right; any miles match
reachable from a later `🚛` is also reachable from the first). -/
def afterFirstTruck : List Char → Option (List Char)
  | [] => none
  | c :: t => if c = '🚛' then some t else afterFirstTruck t

/-- Match `\bTrip\s*:\s*` at the head of `cs` (case-insensitive, `prev`
is the character before `cs` for the `\b` test), returning the rest. -/
def matchTripColonAt (prev : Option Char) (cs : List Char) : Option (List Char) :=
  match cs with
  | t :: r :: i :: p :: r4 =>
    if (match prev with | none => true | some c => !isWordC c) &&
        lowerC t = 't' && lowerC r = 'r' && lowerC i = 'i' && lowerC p = 'p' then
      match r4.dropWhile isSpaceC with
      | ':' :: r5 => some (r5.dropWhile isSpaceC)
      | _ => none
    else none
  | _ => none

/-- `re.search` of `(?im)\bTrip\s*:\s*(\d+[\d,]*(?:\.[0-9]{1,3})?)\s*mi\b`
over the folded text: scan left to right, at each `Trip :` prefix try the
miles pattern. -/
def searchTripMiles : Option Char → List Char → Option (List Char)
  | _, [] => none
  | prev, c :: t =>
    (match matchTripColonAt prev (c :: t) with
     | some r => matchMilesAt r
     | none => none) <|> searchTripMiles (some c) t

/-- `parse_trip_miles` (bot.py lines 102-111): first the
`🚛[\s\S]*?(\d+[\d,]*(?:\.[0-9]{1,3})?)\s*mi\b` search, then the
`\bTrip\s*:\s*...` fallback on `ascii_fold(text)`. -/
def parse_trip_miles (t : String) : Option PyDecimal :=
  let first :=
    match afterFirstTruck t.data with
    | some r => searchMilesFrom r
    | none => none
  match first <|> searchTripMiles none (ascii_fold t.data) with
  | some g => some (decOfNumChars g)
  | none => none

/-- Match `(add|minus)\s*([+-]?\d+(?:\.\d{1,2})?)\b` at the head of `cs`
(which is already folded and lower-cased), `prev` being the previous
character for the leading `\b`.  Returns `(isMinus, group 2)`.  The
optional 1-2 digit fraction backtracks against the final `\b`. -/
def matchAddMinusAt (prev : Option Char) (cs : List Char) : Option (Bool × List Char) :=
  if (match prev with | none => true | some c => !isWordC c) then
    let kw : Option (Bool × List Char) :=
      match cs with
      | 'a' :: 'd' :: 'd' :: r => some (false, r)
      | 'm' :: 'i' :: 'n' :: 'u' :: 's' :: r => some (true, r)
      | _ => none
    match kw with
    | none => none
    | some (isMinus, r0) =>
      let r1 := r0.dropWhile isSpaceC
      let (sign, r2) :=
        match r1 with
        | '+' :: t => (['+'], t)
        | '-' :: t => (['-'], t)
        | _ => (([] : List Char), r1)
      let ds := r2.takeWhile isDigitC
      let r3 := r2.dropWhile isDigitC
      if ds = [] then none
      else
        let boundaryOk : List Char → Bool := fun l =>
          match l with | [] => true | c :: _ => !isWordC c
        let fracTry : Nat → Option (List Char) := fun k =>
          match r3 with
          | '.' :: r4 =>
            let fs := r4.takeWhile isDigitC
            let r5 := r4.dropWhile isDigitC
            if decide (k ≤ fs.length) && !(fs.take k).isEmpty && boundaryOk (fs.drop k ++ r5) then
              some (sign ++ ds ++ '.' :: fs.take k)
            else none
          | _ => none
        match fracTry 2 <|> fracTry 1 with
        | some g => some (isMinus, g)
        | none => if boundaryOk r3 then some (isMinus, sign ++ ds) else none
  else none

/-- `re.search` of the `Add`/`Minus` pattern: leftmost match over the
folded, lower-cased message. -/
def searchAddMinus : Option Char → List Char → Option (Bool × List Char)
  | _, [] => none
  | prev, c :: t => matchAddMinusAt prev (c :: t) <|> searchAddMinus (some c) t

/-- The `Add`/`Minus` branch of `on_any_message` (bot.py lines 642-692)
as a pure function from the original (replied-to) text and the command
message to the corrected text.  The modelled fragment is the main path:
when the amount or mileage is missing or zero the source replies an
error hint, and when `update_rate_and_rpm_in_text` fails it falls back
to a templated reconstruction (lines 668-690); both are outside the
modelled fragment and return `none` here.  None of the verified claims
reaches those paths. -/
def add_minus_reply (original reply : String) : Option String :=
  match searchAddMinus none (lowerAscii (ascii_fold reply.data)) with
  | none => none
  | some (isMinus, g) =>
    let delta0 := decOfSignedChars g
    let delta := if isMinus then delta0.neg else delta0
    match parse_first_dollar_amount original, parse_trip_miles original with
    | some base_rate, some miles =>
      if miles.isZero then none
      else
        let new_rate := (base_rate.add delta).quantize2
        let new_rpm := (new_rate.divQuantize2 miles)
        update_rate_and_rpm_in_text original new_rate new_rpm
    | _, _ => none

/-! ## Flexible rate/RPM block and the percentage ladder -/

/-- `RPM_DECISION_MAX` (bot.py line 152): a lone number at or below 25 is
taken as a per-mile rate. -/
def RPM_DECISION_MAX : PyDecimal := ⟨25, 0⟩

/-- `HAS_PER_MI_RE = /\s*mi\b` (ignore-case), as a search. -/
def hasPerMi : List Char → Bool
  | [] => false
  | '/' :: t => (matchMiTail t).isSome || hasPerMi t
  | _ :: t => hasPerMi t

/-- Full match of `ANY_AMOUNT_RE`
(`^\s*\$?\s*([0-9][\d,]*(?:\.[0-9]{1,4})?)\s*(?:/mi)?\s*$`, ignore-case)
against a whole line. -/
def anyAmountOk (cs : List Char) : Bool :=
  let r := cs.dropWhile isSpaceC
  let r := match r with | '$' :: t => t.dropWhile isSpaceC | _ => r
  match r with
  | c :: r2 =>
    if isDigitC c then
      let r3 := r2.dropWhile (fun x => isDigitC x || x = ',')
      let r4 :=
        match r3 with
        | '.' :: r4 =>
          let ds := r4.takeWhile isDigitC
          if ds = [] || 4 < ds.length then r3 else r4.dropWhile isDigitC
        | _ => r3
      let r5 := r4.dropWhile isSpaceC
      let r6 :=
        match r5 with
        | '/' :: m :: i :: t => if lowerC m = 'm' && lowerC i = 'i' then t else r5
        | _ => r5
      (r6.dropWhile isSpaceC).isEmpty
    else false
  | [] => false

/-- Group-1 search `([0-9][\d,]*(?:\.[0-9]{1,4})?)` used by the `to_dec`
helper (bot.py lines 165-167): leftmost, greedy (the pattern has no
follower, so plain greediness is the regex's behaviour). -/
def matchNumAt (cs : List Char) : Option (List Char) :=
  match cs with
  | c :: rest =>
    if isDigitC c then
      let dc := rest.takeWhile (fun x => isDigitC x || x = ',')
      let r3 := rest.dropWhile (fun x => isDigitC x || x = ',')
      match r3 with
      | '.' :: r4 =>
        let ds := r4.takeWhile isDigitC
        if ds = [] then some (c :: dc) else some (c :: dc ++ '.' :: ds.take 4)
      | _ => some (c :: dc)
    else none
  | [] => none

def searchNum : List Char → Option (List Char)
  | [] => none
  | c :: t => matchNumAt (c :: t) <|> searchNum t

/-- `to_dec` (bot.py lines 165-167). -/
def to_dec (cs : List Char) : PyDecimal :=
  decOfNumChars ((searchNum cs).getD [])

/-- `_parse_flex_rate_rpm` (bot.py lines 157-187): one or two non-empty
stripped lines, each a bare amount; two lines are (rate, rpm) ordered by
the `/mi` marker; a single line is an rpm when marked `/mi` or at most
`RPM_DECISION_MAX`, otherwise a rate. -/
def parse_flex_rate_rpm (text : String) :
    Option (Option PyDecimal × Option PyDecimal) :=
  let lines := ((splitlinesPy text.data).map stripPy).filter (fun l => !l.isEmpty)
  if lines.length = 0 || 2 < lines.length then none
  else if lines.any (fun l => !anyAmountOk l) then none
  else
    match lines with
    | [l1, l2] =>
      let v1 := to_dec l1
      let v2 := to_dec l2
      if hasPerMi l1 && !hasPerMi l2 then some (some v2, some v1)
      else if hasPerMi l2 && !hasPerMi l1 then some (some v1, some v2)
      else some (some v1, some v2)
    | [l] =>
      let v := to_dec l
      if hasPerMi l then some (none, some v)
      else if v.leDec RPM_DECISION_MAX then some (none, some v)
      else some (some v, none)
    | _ => none

/-- `RATE_REASON` (bot.py lines 199-202). -/
def RATE_REASON : List Char :=
  ("Due to record fuel costs, a long/demanding route, and tight capacity " ++
   "in this market, we need a higher rate to service this lane reliably").data

/-- The percentage list of `build_percentage_reply_flex` (bot.py line 205). -/
def flexPercents : List Nat := [10, 13, 15, 25, 30]

/-- One block of `build_percentage_reply_flex` (bot.py lines 207-228) for
percentage `p`. -/
def flexChunk (base_rate base_rpm : Option PyDecimal) (p : Nat) : List Char :=
  let label := if p = 30 then "Broker".data else "AI".data
  let mult : PyDecimal := ⟨(100 : Int) + p, 2⟩
  let new_rate := base_rate.map (fun b => (b.mul mult).quantize2)
  let new_rpm := base_rpm.map (fun b => (b.mul mult).quantize2)
  let headParts : List (List Char) :=
    [(Nat.repr p).data ++ "% ".data ++ label] ++
    (match new_rate, new_rpm with
     | some r, some m => [format_money r ++ " /".data ++ format_money m ++ "/mi".data]
     | some r, none => [format_money r]
     | none, some m => [format_money m ++ "/mi".data]
     | none, none => [])
  let line1 := joinWith [' '] headParts
  match (match new_rate with | some r => some r | none => new_rpm) with
  | some shown => line1 ++ '\n' :: (strip_trailing_zeros shown ++ ' ' :: RATE_REASON)
  | none => line1

/-- `build_percentage_reply_flex` (bot.py lines 204-230). -/
def build_percentage_reply_flex (base_rate base_rpm : Option PyDecimal) : String :=
  String.mk (joinWith "\n\n".data (flexPercents.map (flexChunk base_rate base_rpm)))

/-! ## Timezones and the DateTime Resolver -/

/-- The IANA zones appearing as values of `TZ_ABBR_TO_ZONE` (bot.py
lines 62-70); instants attached to a zone are modelled with fixed zone
offsets (see the header note). -/
inductive Zone
  | losAngeles
  | denver
  | chicago
  | newYork
  | anchorage
  | honolulu
  | utc
deriving DecidableEq, Repr

/-- `TZ_ABBR_TO_ZONE` (bot.py lines 62-70), keyed by the upper-case
abbreviation. -/
def TZ_ABBR_TO_ZONE (abbr : List Char) : Option Zone :=
  match String.mk abbr with
  | "PST" => some .losAngeles
  | "PDT" => some .losAngeles
  | "MST" => some .denver
  | "MDT" => some .denver
  | "CST" => some .chicago
  | "CDT" => some .chicago
  | "EST" => some .newYork
  | "EDT" => some .newYork
  | "AKST" => some .anchorage
  | "AKDT" => some .anchorage
  | "HST" => some .honolulu
  | "HDT" => some .honolulu
  | "UTC" => some .utc
  | "GMT" => some .utc
  | _ => none

/-- `_tz_to_zoneinfo` (bot.py lines 243-254): upper-case the
abbreviation and look it up; a known zone name always yields its zone
object (`dateutil.tz.gettz`/`ZoneInfo` on the table's values never
fails), an unknown abbreviation yields `None`. -/
def tz_to_zoneinfo (abbr : List Char) : Option Zone :=
  TZ_ABBR_TO_ZONE (upperAscii abbr)

/-- `MONTH_ABBR` (bot.py lines 71-73), keyed by the lower-cased
three-letter abbreviation. -/
def MONTH_ABBR (mon : List Char) : Option Nat :=
  match String.mk mon with
  | "jan" => some 1
  | "feb" => some 2
  | "mar" => some 3
  | "apr" => some 4
  | "may" => some 5
  | "jun" => some 6
  | "jul" => some 7
  | "aug" => some 8
  | "sep" => some 9
  | "oct" => some 10
  | "nov" => some 11
  | "dec" => some 12
  | _ => none

/-- A zone-aware calendar datetime, the model of the aware
`datetime.datetime` values produced by `parse_pu_datetime`. -/
structure PuDT where
  year : Nat
  month : Nat
  day : Nat
  hour : Nat
  minute : Nat
  zone : Zone
deriving DecidableEq, Repr

def isLeapYear (y : Nat) : Bool :=
  (y % 4 = 0 && y % 100 ≠ 0) || y % 400 = 0

def daysInMonth (y m : Nat) : Nat :=
  if m = 2 then (if isLeapYear y then 29 else 28)
  else if m = 4 || m = 6 || m = 9 || m = 11 then 30
  else 31

/-- The domain of the `datetime` constructor: the calendar validity
check whose failure the source turns into `None` via
`try ... except: return None` (bot.py lines 315-318 and 337-340). -/
def validDatetime (y mo d h mi : Nat) : Bool :=
  1 ≤ y && y ≤ 9999 && 1 ≤ mo && mo ≤ 12 && 1 ≤ d && d ≤ daysInMonth y mo &&
  h ≤ 23 && mi ≤ 59

/-- Read 1 to `max` digits greedily; returns `(value, count, rest)`.
Every use site follows the digit run with a pattern that cannot match a
digit, so greediness without backtracking coincides with the regex. -/
def takeDigitsAux : Nat → List Char → Nat → Nat → Nat × Nat × List Char
  | 0, cs, v, n => (v, n, cs)
  | m + 1, c :: cs, v, n =>
    if isDigitC c then takeDigitsAux m cs (10 * v + (c.toNat - 48)) (n + 1)
    else (v, n, c :: cs)
  | _ + 1, [], v, n => (v, n, [])

def takeDigitsUpTo (max : Nat) (cs : List Char) : Option (Nat × Nat × List Char) :=
  match takeDigitsAux max cs 0 0 with
  | (_, 0, _) => none
  | r => some r

/-- Read 2 to 4 ASCII letters greedily (the `[A-Za-z]{2,4}` timezone
group; its follower `\s*$` or `\s*,` cannot match a letter). -/
def takeLettersUpTo4 (cs : List Char) : Option (List Char × List Char) :=
  match cs with
  | a :: b :: r =>
    if isAlphaC a && isAlphaC b then
      match r with
      | c :: r2 =>
        if isAlphaC c then
          match r2 with
          | d :: r3 => if isAlphaC d then some ([a, b, c, d], r3) else some ([a, b, c], r2)
          | [] => some ([a, b, c], r2)
        else some ([a, b], r)
      | [] => some ([a, b], r)
    else none
  | _ => none

/-- The weekday alternation of `WEEKDAY_OPT`
(`(?:Mon|Tue|Wed|Thu|Fri|Sat|Sun)`, case-insensitive). -/
def matchWeekdayName (cs : List Char) : Option (List Char) :=
  match cs with
  | a :: b :: c :: r =>
    let w := String.mk [lowerC a, lowerC b, lowerC c]
    if w = "mon" || w = "tue" || w = "wed" || w = "thu" || w = "fri" ||
        w = "sat" || w = "sun" then some r
    else none
  | _ => none

/-- `\s*,?\s+` — the separator after an optional weekday. -/
def skipWeekdaySep (cs : List Char) : Option (List Char) :=
  let sp1 := cs.takeWhile isSpaceC
  let r1 := cs.dropWhile isSpaceC
  match r1 with
  | ',' :: r2 =>
    let sp2 := r2.takeWhile isSpaceC
    if sp2.isEmpty then none else some (r2.dropWhile isSpaceC)
  | _ => if sp1.isEmpty then none else some r1

/-- `,?\s+` — the separator after the month/day group in the
`pat1`/`pat2` grammars. -/
def skipCommaSpaces1 (cs : List Char) : Option (List Char) :=
  let r1 := match cs with | ',' :: t => t | _ => cs
  if (r1.takeWhile isSpaceC).isEmpty then none else some (r1.dropWhile isSpaceC)

/-- `\s*,\s*` — the mandatory comma separators of the AM/PM grammar. -/
def skipSpacesComma (cs : List Char) : Option (List Char) :=
  match cs.dropWhile isSpaceC with
  | ',' :: r => some (r.dropWhile isSpaceC)
  | _ => none

/-- `\s+`. -/
def skipSpaces1 (cs : List Char) : Option (List Char) :=
  if (cs.takeWhile isSpaceC).isEmpty then none else some (cs.dropWhile isSpaceC)

/-- The captured groups of `pat_us_ampm` (bot.py lines 292-298). -/
structure UsAmPmGroups where
  h : Nat
  mi : Nat
  isPM : Bool
  mo : Nat
  d : Nat
  y : Nat
  tz : List Char
deriving DecidableEq, Repr

/-- The body of `pat_us_ampm` after the optional weekday:
`(?P<h>\d{1,2}):(?P<mi>\d{2})\s*(?P<ampm>AM|PM)\s*,\s*`
`(?P<mo>\d{1,2})-(?P<d>\d{1,2})-(?P<y>\d{2,4})\s*,\s*(?P<tz>[A-Za-z]{2,4})\s*$`
(case-insensitive). -/
def matchUsAmPmCore (cs : List Char) : Option UsAmPmGroups := do
  let (h, _, r1) ← takeDigitsUpTo 2 cs
  let r2 ← match r1 with | ':' :: t => some t | _ => none
  let (mi, n2, r3) ← takeDigitsUpTo 2 r2
  if n2 ≠ 2 then none else
  let r4 := r3.dropWhile isSpaceC
  let (isPM, r5) ← match r4 with
    | a :: m :: t =>
      if lowerC m = 'm' && lowerC a = 'a' then some (false, t)
      else if lowerC m = 'm' && lowerC a = 'p' then some (true, t)
      else none
    | _ => none
  let r6 ← skipSpacesComma r5
  let (mo, _, r7) ← takeDigitsUpTo 2 r6
  let r8 ← match r7 with | '-' :: t => some t | _ => none
  let (d, _, r9) ← takeDigitsUpTo 2 r8
  let r10 ← match r9 with | '-' :: t => some t | _ => none
  let (y, ny, r11) ← takeDigitsUpTo 4 r10
  if ny < 2 then none else
  let r12 ← skipSpacesComma r11
  let (tzg, r13) ← takeLettersUpTo4 r12
  if (r13.dropWhile isSpaceC).isEmpty then some ⟨h, mi, isPM, mo, d, y, tzg⟩ else none

/-- `re.search(pat_us_ampm, s)`: the pattern is anchored `^...$`; the
greedy optional weekday is tried first and backtracked to empty when the
body fails after it. -/
def matchUsAmPm (cs : List Char) : Option UsAmPmGroups :=
  match matchWeekdayName cs with
  | some r =>
    (match skipWeekdaySep r with
     | some r2 => matchUsAmPmCore r2
     | none => none) <|> matchUsAmPmCore cs
  | none => matchUsAmPmCore cs

/-- The groups shared by the `pat1`/`pat2` grammars (bot.py lines
321-322): day, month name, hour, minute, timezone abbreviation. -/
structure DayMonGroups where
  d : Nat
  mon : List Char
  h : Nat
  mi : Nat
  tz : List Char
deriving DecidableEq, Repr

/-- The common tail `(?P<h>\d{1,2}):(?P<mi>\d{2})\s+(?P<tz>[A-Za-z]{2,4})\s*$`. -/
def matchTimeTzTail (cs : List Char) : Option (Nat × Nat × List Char) := do
  let (h, _, r1) ← takeDigitsUpTo 2 cs
  let r2 ← match r1 with | ':' :: t => some t | _ => none
  let (mi, n2, r3) ← takeDigitsUpTo 2 r2
  if n2 ≠ 2 then none else
  let r4 ← skipSpaces1 r3
  let (tzg, r5) ← takeLettersUpTo4 r4
  if (r5.dropWhile isSpaceC).isEmpty then some (h, mi, tzg) else none

/-- Exactly three ASCII letters (`[A-Za-z]{3}`; its follower `,?\s+`
cannot match a letter). -/
def takeMonthName (cs : List Char) : Option (List Char × List Char) :=
  match cs with
  | a :: b :: c :: r =>
    if isAlphaC a && isAlphaC b && isAlphaC c &&
        (match r with | d :: _ => !isAlphaC d | [] => true) then
      some ([a, b, c], r)
    else none
  | _ => none

/-- Body of `pat1` after the optional weekday:
`(?P<d>\d{1,2})\s+(?P<mon>[A-Za-z]{3}),?\s+` then the time/tz tail. -/
def matchDayMonCore (cs : List Char) : Option DayMonGroups := do
  let (d, _, r1) ← takeDigitsUpTo 2 cs
  let r2 ← skipSpaces1 r1
  let (mon, r3) ← takeMonthName r2
  let r4 ← skipCommaSpaces1 r3
  let (h, mi, tzg) ← matchTimeTzTail r4
  return ⟨d, mon, h, mi, tzg⟩

/-- Body of `pat2` after the optional weekday:
`(?P<mon>[A-Za-z]{3})\s+(?P<d>\d{1,2}),?\s+` then the time/tz tail. -/
def matchMonDayCore (cs : List Char) : Option DayMonGroups := do
  let (mon, r1) ← takeMonthName cs
  let r2 ← skipSpaces1 r1
  let (d, _, r3) ← takeDigitsUpTo 2 r2
  let r4 ← skipCommaSpaces1 r3
  let (h, mi, tzg) ← matchTimeTzTail r4
  return ⟨d, mon, h, mi, tzg⟩

/-- Wrap a grammar body in the greedy optional weekday of `WEEKDAY_OPT`. -/
def withWeekdayOpt (core : List Char → Option DayMonGroups) (cs : List Char) :
    Option DayMonGroups :=
  match matchWeekdayName cs with
  | some r =>
    (match skipWeekdaySep r with
     | some r2 => core r2
     | none => none) <|> core cs
  | none => core cs

/-- `re.search(pat1, s) or re.search(pat2, s)` (bot.py line 324). -/
def matchDayMonOrMonDay (cs : List Char) : Option DayMonGroups :=
  withWeekdayOpt matchDayMonCore cs <|> withWeekdayOpt matchMonDayCore cs

/-- Construction step of the AM/PM branch (bot.py lines 301-318):
12-hour → 24-hour normalization, two-digit-year expansion, timezone
lookup with the explicit `or timezone.utc` fallback, then the `datetime`
constructor guarded by `try/except`. -/
def constructUsAmPm (g : UsAmPmGroups) : Option PuDT :=
  let hour := if g.isPM && g.h ≠ 12 then g.h + 12
              else if !g.isPM && g.h = 12 then 0 else g.h
  let year := if g.y < 100 then g.y + 2000 else g.y
  let zone := (tz_to_zoneinfo g.tz).getD .utc
  if validDatetime year g.mo g.d hour g.mi then
    some ⟨year, g.mo, g.d, hour, g.mi, zone⟩
  else none

/-- Construction step of the `pat1`/`pat2` branch (bot.py lines
328-340): month-name lookup, timezone lookup with the `or timezone.utc`
fallback, the zone's current year, then the guarded `datetime`
constructor.  `nowYear` is `datetime.now(tzinfo).year`, the current
calendar year in the resolved zone at the moment of parsing. -/
def constructDayMon (nowYear : Nat) (g : DayMonGroups) : Option PuDT :=
  match MONTH_ABBR (lowerAscii g.mon) with
  | none => none
  | some mon =>
    let zone := (tz_to_zoneinfo g.tz).getD .utc
    if validDatetime nowYear mon g.d g.h g.mi then
      some ⟨nowYear, mon, g.d, g.h, g.mi, zone⟩
    else none

/-- `parse_pu_datetime` (bot.py lines 256-340) on its stdlib fallback
path: strip the input, try the AM/PM grammar, then `pat1`/`pat2`. -/
def parse_pu_datetime (nowYear : Nat) (pu_str : String) : Option PuDT :=
  let s := stripPy pu_str.data
  match matchUsAmPm s with
  | some g => constructUsAmPm g
  | none =>
    match matchDayMonOrMonDay s with
    | some g => constructDayMon nowYear g
    | none => none

/-- The timezone-abbreviation group captured by whichever grammar of
`parse_pu_datetime` matches a (stripped) input, in the source's match
order. -/
def matchedTz (cs : List Char) : Option (List Char) :=
  match matchUsAmPm cs with
  | some g => some g.tz
  | none =>
    match matchDayMonOrMonDay cs with
    | some g => some g.tz
    | none => none

/-! ## Fire-time planning and the selection state machine -/

/-- `OFF_CHOICES` (bot.py line 411): the fixed lead-time catalog, in
hours, in the descending order the source lists. -/
def OFF_CHOICES : List Nat := [12, 9, 8, 7, 6, 2, 1]

/-- `(pu_dt - timedelta(hours=h) - timedelta(minutes=5)).astimezone(timezone.utc)`
with instants as UTC epoch seconds (fixed-offset zone model). -/
def fireAtUtc (pu : Int) (h : Nat) : Int := pu - 3600 * h - 300

/-- `_available_offsets_for` (bot.py lines 352-363): the catalog entries
whose fire time is strictly after `now + MIN_DELAY_SEC`. -/
def available_offsets_for (pu now minDelay : Int) : List Nat :=
  OFF_CHOICES.filter (fun h => decide (now + minDelay < fireAtUtc pu h))

/-- The process-wide mutable dictionaries touched by `on_callback`,
restricted to their pure content: `PENDING_PU`, `PENDING_OFFSETS`
(read-default the empty set) and `SCHEDULED`, all keyed by
`(chat_id, origin_msg_id)`. -/
structure BotState where
  pendingPu : Nat × Nat → Option Int
  pendingOffsets : Nat × Nat → Finset Nat
  scheduled : Nat × Nat → Option Int

/-- The `sel` branch of `on_callback` (bot.py lines 451-469): recompute
the candidate list (full catalog when no pickup instant is pending),
reject a toggle of a candidate outside it (answer only, no state
change), otherwise toggle membership of exactly the chosen offset. -/
def onSel (now minDelay : Int) (key : Nat × Nat) (h : Nat) (st : BotState) : BotState :=
  let choices :=
    match st.pendingPu key with
    | none => OFF_CHOICES
    | some pu => available_offsets_for pu now minDelay
  if h ∈ choices then
    let s := st.pendingOffsets key
    let s2 := if h ∈ s then s.erase h else insert h s
    { st with pendingOffsets := fun k => if k = key then s2 else st.pendingOffsets k }
  else st

/-- `sorted(sel, reverse=True)` for the selection sets of the bot: every
element ever added to `PENDING_OFFSETS` is a member of the catalog (the
`sel` branch only adds `h ∈ choices ⊆ OFF_CHOICES`), and `OFF_CHOICES`
is strictly descending, so the descending sort of such a set is the
catalog filtered to its members. -/
def sortedDescMembers (s : Finset Nat) : List Nat :=
  OFF_CHOICES.filter (fun h => decide (h ∈ s))

/-- The valid selection processed by a submission (bot.py lines 479-484):
the stored selection, sorted descending, filtered to the currently
available candidates. -/
def validSelDesc (s : Finset Nat) (choices : List Nat) : List Nat :=
  (sortedDescMembers s).filter (fun h => decide (h ∈ choices))

/-- The `sub` branch of `on_callback` (bot.py lines 477-508) as a pure
transformer.  Returns the new state and the list of created jobs as
`(offset, fire instant)` pairs (the loop's `schedule_ai_available_msg`
calls plus `created` entries).  With no pending pickup instant or no
valid selected candidate the state is returned unchanged and no job is
created (the source only answers an alert); otherwise one job per valid
selected offset is created in descending-offset order, each loop
iteration overwriting `SCHEDULED[key]` with its fire instant, and the
key's pending entries are discarded. -/
def onSub (now minDelay : Int) (key : Nat × Nat) (st : BotState) :
    BotState × List (Nat × Int) :=
  match st.pendingPu key with
  | none => (st, [])
  | some pu =>
    let choices := available_offsets_for pu now minDelay
    let sel := validSelDesc (st.pendingOffsets key) choices
    if sel.isEmpty then (st, [])
    else
      let jobs := sel.map (fun h => (h, fireAtUtc pu h))
      let sched2 := jobs.foldl (fun _ j => some j.2) (st.scheduled key)
      ({ pendingPu := fun k => if k = key then none else st.pendingPu k,
         pendingOffsets := fun k => if k = key then ∅ else st.pendingOffsets k,
         scheduled := fun k => if k = key then sched2 else st.scheduled k }, jobs)

/-! ## Spec-side definitions for refinement comparisons -/

/-- Follows the claim's words (C5): "12 AM becomes hour 0, 12 PM stays
hour 12, any other PM hour gains 12" — to be compared with the hour
computed by `constructUsAmPm`. -/
def specNormalizeHour (h : Nat) (isPM : Bool) : Nat :=
  if isPM = false && h = 12 then 0
  else if isPM && h = 12 then 12
  else if isPM then h + 12
  else h

/-- Follows the claim's words (C5): "a two-digit year is expanded by
adding 2000" — to be compared with the year computed by
`constructUsAmPm`. -/
def specExpandYear (y : Nat) : Nat := if y < 100 then y + 2000 else y

/-! ## Helper lemmas -/

theorem setAt_self : ∀ (l : List α) (i : Nat) (x : α), l[i]? = some x → setAt i x l = l := by
  intro l
  induction l with
  | nil => intro i x h; simp at h
  | cons a t ih =>
    intro i x h
    cases i with
    | zero => simp at h; simp [setAt, h]
    | succ j => simp at h; simp [setAt, ih j x h]

theorem foldl_lastWrite : ∀ (l : List (Nat × Int)) (a : Option Int) (x : Nat × Int),
    l.getLast? = some x → l.foldl (fun _ j => some j.2) a = some x.2 := by
  intro l
  induction l with
  | nil => intro a x h; simp at h
  | cons y t ih =>
    intro a x h
    cases t with
    | nil => simp at h; simp [List.foldl, h]
    | cons z t2 =>
      rw [List.getLast?_cons_cons] at h
      simpa [List.foldl] using ih (some y.2) x h

/-- A successful dollar-amount match at the head of a line splits it:
whole match followed by the rest reassembles the input. -/
theorem matchAmountAt_append : ∀ (cs w n r : List Char),
    matchAmountAt cs = some (w, n, r) → w ++ r = cs := by
  intro cs w n r h
  unfold matchAmountAt at h
  split at h
  next r0 =>
    dsimp only at h
    split at h
    next c r2 heq1 =>
      split at h
      next hdig =>
        split at h
        next r4 heq3 =>
          split at h
          next hds =>
            injection h with h2
            injection h2 with hw h3
            injection h3 with hn hr
            subst hw; subst hr
            simp only [List.cons_append, List.append_assoc]
            rw [List.takeWhile_append_dropWhile, ← heq1,
              List.takeWhile_append_dropWhile]
          next hds =>
            injection h with h2
            injection h2 with hw h3
            injection h3 with hn hr
            subst hw; subst hr
            have e4 : (List.takeWhile isDigitC r4).take 4 ++
                ((List.takeWhile isDigitC r4).drop 4 ++ List.dropWhile isDigitC r4) =
                List.takeWhile isDigitC r4 ++ List.dropWhile isDigitC r4 := by
              rw [← List.append_assoc, List.take_append_drop]
            simp only [List.cons_append, List.append_assoc]
            rw [e4, List.takeWhile_append_dropWhile, ← heq3,
              List.takeWhile_append_dropWhile, ← heq1, List.takeWhile_append_dropWhile]
        next heq3 =>
          injection h with h2
          injection h2 with hw h3
          injection h3 with hn hr
          subst hw; subst hr
          simp only [List.cons_append, List.append_assoc]
          rw [List.takeWhile_append_dropWhile, ← heq1, List.takeWhile_append_dropWhile]
      next hdig => exact absurd h (by simp)
    next heq1 => exact absurd h (by simp)
  next => exact absurd h (by simp)

/-- The span found by `firstAmountSpan` reassembles the line. -/
theorem firstAmountSpan_append : ∀ (l : List Char) (a : AmountSpan),
    firstAmountSpan l = some a → a.pre ++ a.whole ++ a.rest = l := by
  intro l
  induction l with
  | nil => intro a h; simp [firstAmountSpan] at h
  | cons c t ih =>
    intro a h
    unfold firstAmountSpan at h
    split at h
    next w n r hm =>
      injection h with h2
      subst h2
      simpa using matchAmountAt_append _ _ _ _ hm
    next hm =>
      split at h
      next a2 hs =>
        injection h with h2
        subst h2
        simpa using ih a2 hs
      next => exact absurd h (by simp)

/-- Toggling membership of `h` twice restores a finite set. -/
theorem toggleTwice (s : Finset Nat) (h : Nat) :
    (if h ∈ (if h ∈ s then s.erase h else insert h s) then
        (if h ∈ s then s.erase h else insert h s).erase h
      else insert h (if h ∈ s then s.erase h else insert h s)) = s := by
  by_cases hs : h ∈ s <;>
    simp [hs, Finset.erase_insert, Finset.insert_erase]

/-! ## Claims -/

/-- C1: every lead-time offset that `_available_offsets_for` returns for
a pickup instant comes from the fixed catalog `OFF_CHOICES`
(12h, 9h, 8h, 7h, 6h, 2h, 1h) and satisfies
`pickup − offset − buffer > now + MIN_DELAY_SEC` in UTC. -/
theorem c1_available_candidates_sound (pu now minDelay : Int) (h : Nat)
    (hmem : h ∈ available_offsets_for pu now minDelay) :
    h ∈ OFF_CHOICES ∧ now + minDelay < fireAtUtc pu h := by
  unfold available_offsets_for at hmem
  rcases List.mem_filter.mp hmem with ⟨h1, h2⟩
  exact ⟨h1, by simpa using h2⟩

theorem c1_available_candidates_sound_witness :
    12 ∈ OFF_CHOICES ∧ (0 : Int) + 0 < fireAtUtc 100000 12 :=
  c1_available_candidates_sound 100000 0 0 12 (by decide)

/-- C2, counterexample: the input line `06:22 AM, 09-26-25, XYZ` carries
the trailing three-letter abbreviation `XYZ`, which is not a key of
`TZ_ABBR_TO_ZONE`; the claim says resolution must fail, but
`parse_pu_datetime` resolves the line to an instant with the silently
substituted UTC zone (the `or timezone.utc` fallback of bot.py lines 314
and 335). -/
theorem c2_unknown_tz_counterexample :
    tz_to_zoneinfo "XYZ".data = none ∧
    parse_pu_datetime 2025 "06:22 AM, 09-26-25, XYZ" =
      some ⟨2025, 9, 26, 6, 22, Zone.utc⟩ := by
  decide

/-- C2, amended: when an input matches one of the supported grammars but
its timezone abbreviation is unknown, the DateTime Resolver does not
fail; it substitutes UTC for the unknown abbreviation, so every instant
it produces for such an input carries the UTC zone. -/
theorem c2_unknown_tz_resolves_utc (nowYear : Nat) (s : String) (tzcs : List Char)
    (dt : PuDT)
    (htz : matchedTz (stripPy s.data) = some tzcs)
    (hunknown : tz_to_zoneinfo tzcs = none)
    (hparse : parse_pu_datetime nowYear s = some dt) :
    dt.zone = Zone.utc := by
  unfold parse_pu_datetime at hparse
  dsimp only at hparse
  unfold matchedTz at htz
  cases hm : matchUsAmPm (stripPy s.data) with
  | some g =>
    rw [hm] at hparse htz
    dsimp only at hparse htz
    injection htz with htz2
    subst htz2
    unfold constructUsAmPm at hparse
    rw [hunknown] at hparse
    dsimp only at hparse
    rcases ite_eq_iff.mp hparse with ⟨_, h2⟩ | ⟨_, h2⟩
    · injection h2 with h3
      subst h3
      rfl
    · exact absurd h2 (by simp)
  | none =>
    rw [hm] at hparse htz
    dsimp only at hparse htz
    cases hm2 : matchDayMonOrMonDay (stripPy s.data) with
    | some g =>
      rw [hm2] at hparse htz
      dsimp only at hparse htz
      injection htz with htz2
      subst htz2
      unfold constructDayMon at hparse
      cases hmon : MONTH_ABBR (lowerAscii g.mon) with
      | none =>
        rw [hmon] at hparse
        exact absurd hparse (by simp)
      | some mon =>
        rw [hmon, hunknown] at hparse
        dsimp only at hparse
        rcases ite_eq_iff.mp hparse with ⟨_, h2⟩ | ⟨_, h2⟩
        · injection h2 with h3
          subst h3
          rfl
        · exact absurd h2 (by simp)
    | none =>
      rw [hm2] at hparse
      dsimp only at hparse
      exact absurd hparse (by simp)

theorem c2_unknown_tz_resolves_utc_witness :
    (⟨2025, 9, 26, 6, 22, Zone.utc⟩ : PuDT).zone = Zone.utc :=
  c2_unknown_tz_resolves_utc 2025 "06:22 AM, 09-26-25, XYZ" "XYZ".data
    ⟨2025, 9, 26, 6, 22, Zone.utc⟩ (by decide) (by decide) (by decide)

/-- C3, counterexample: with a pending pickup instant 7200 (so at
now = 0 with no minimum delay the only valid candidate is the 1h offset)
and the 12h offset already stored in the selection, toggling the 1h
offset leaves 12 in the stored selection set although 12 is no longer a
valid candidate — the toggle does not remove stale selections, so after
a toggle the stored set does not contain only currently valid
candidates. -/
theorem c3_toggle_keeps_stale_counterexample :
    (⟨fun _ => some 7200, fun _ => {12}, fun _ => none⟩ : BotState).pendingPu (0, 0) =
      some 7200 ∧
    available_offsets_for 7200 0 0 = [1] ∧
    12 ∈ (onSel 0 0 (0, 0) 1
      ⟨fun _ => some 7200, fun _ => {12}, fun _ => none⟩).pendingOffsets (0, 0) ∧
    12 ∉ available_offsets_for 7200 0 0 := by
  decide

/-- C3, amended: a toggle recomputes the valid-candidate set but checks
only the toggled offset against it — a toggle of an offset outside it is
rejected and leaves the state unchanged, while previously selected
offsets that became unreachable stay in the stored set; the stale
entries are removed only at submission, where every created job's offset
is in both the recomputed valid set and the stored selection. -/
theorem c3_stale_filtered_at_submit (now minDelay : Int) (key : Nat × Nat)
    (st : BotState) (pu : Int)
    (hpu : st.pendingPu key = some pu) :
    (∀ h, h ∉ available_offsets_for pu now minDelay →
      onSel now minDelay key h st = st) ∧
    (∀ j ∈ (onSub now minDelay key st).2,
      j.1 ∈ available_offsets_for pu now minDelay ∧ j.1 ∈ st.pendingOffsets key ∧
      j.2 = fireAtUtc pu j.1) := by
  constructor
  · intro h hmem
    unfold onSel
    rw [hpu]
    simp [hmem]
  · intro j hj
    unfold onSub at hj
    rw [hpu] at hj
    by_cases hempty : (validSelDesc (st.pendingOffsets key)
        (available_offsets_for pu now minDelay)).isEmpty
    · simp [hempty] at hj
    · simp only [hempty, Bool.false_eq_true, if_false] at hj
      rcases List.mem_map.mp hj with ⟨h2, hmem2, rfl⟩
      unfold validSelDesc sortedDescMembers at hmem2
      rcases List.mem_filter.mp hmem2 with ⟨hmem3, hch⟩
      rcases List.mem_filter.mp hmem3 with ⟨_, hs⟩
      exact ⟨by simpa using hch, by simpa using hs, rfl⟩

theorem c3_stale_filtered_at_submit_witness :
    onSel 0 0 (0, 0) 12 ⟨fun _ => some 7200, fun _ => {12}, fun _ => none⟩ =
      ⟨fun _ => some 7200, fun _ => {12}, fun _ => none⟩ :=
  (c3_stale_filtered_at_submit 0 0 (0, 0) _ 7200 rfl).1 12 (by decide)

/-- C4: a submission on a live token (pending pickup instant present)
whose set of currently valid selected candidates is empty schedules no
job and leaves the whole state — the stored pickup instant and the
selection set included — unchanged, so the token stays open. -/
theorem c4_empty_submit_keeps_token (now minDelay : Int) (key : Nat × Nat)
    (st : BotState) (pu : Int)
    (hpu : st.pendingPu key = some pu)
    (hsel : validSelDesc (st.pendingOffsets key)
        (available_offsets_for pu now minDelay) = []) :
    onSub now minDelay key st = (st, []) := by
  unfold onSub
  rw [hpu]
  simp [hsel]

theorem c4_empty_submit_keeps_token_witness :
    onSub 0 0 (0, 0) ⟨fun _ => some 7200, fun _ => {12}, fun _ => none⟩ =
      (⟨fun _ => some 7200, fun _ => {12}, fun _ => none⟩, []) :=
  c4_empty_submit_keeps_token 0 0 (0, 0) _ 7200 rfl (by decide)

/-- C5: in the 12-hour-clock grammar `HH:MM AM|PM, MM-DD-YY, TZABBR`,
every instant `parse_pu_datetime` constructs has its hour normalized to
24-hour form exactly as the claim states (12 AM → 0, 12 PM → 12, other
PM hours gain 12) and its two-digit year expanded by adding 2000,
witnessed against the spec-side `specNormalizeHour`/`specExpandYear`. -/
theorem c5_ampm_normalization (nowYear : Nat) (s : String) (g : UsAmPmGroups)
    (dt : PuDT)
    (hm : matchUsAmPm (stripPy s.data) = some g)
    (hparse : parse_pu_datetime nowYear s = some dt) :
    dt.hour = specNormalizeHour g.h g.isPM ∧ dt.year = specExpandYear g.y := by
  unfold parse_pu_datetime at hparse
  dsimp only at hparse
  rw [hm] at hparse
  dsimp only at hparse
  unfold constructUsAmPm at hparse
  dsimp only at hparse
  rcases ite_eq_iff.mp hparse with ⟨_, h2⟩ | ⟨_, h2⟩
  · injection h2 with h3
    subst h3
    constructor
    · show (if (g.isPM && decide (g.h ≠ 12)) = true then g.h + 12
        else if (!g.isPM && decide (g.h = 12)) = true then 0 else g.h) = _
      unfold specNormalizeHour
      by_cases hpm : g.isPM = true <;> by_cases h12 : g.h = 12 <;>
        simp [hpm, h12]
    · show (if g.y < 100 then g.y + 2000 else g.y) = _
      unfold specExpandYear
      rfl
  · exact absurd h2 (by simp)

theorem c5_ampm_normalization_witness :
    (⟨2025, 1, 2, 0, 0, Zone.chicago⟩ : PuDT).hour = specNormalizeHour 12 false ∧
    (⟨2025, 1, 2, 0, 0, Zone.chicago⟩ : PuDT).year = specExpandYear 25 :=
  c5_ampm_normalization 2025 "12:00 AM, 01-02-25, CST"
    ⟨12, 0, false, 1, 2, 25, "CST".data⟩ ⟨2025, 1, 2, 0, 0, Zone.chicago⟩
    (by decide) (by decide)

set_option maxRecDepth 8000 in
set_option maxHeartbeats 1000000 in
/-- C6: a message that is a single bare number with no currency symbol
and no per-mile marker is taken as a per-distance rate when at most the
fixed ceiling `RPM_DECISION_MAX` (25) and as an absolute rate above it;
in particular the single line `18` parses as a per-distance rate and the
10% tier of the resulting ladder reads `10% AI $19.80/mi`. -/
theorem c6_bare_number_threshold :
    (∀ (t : String) (l : List Char),
      ((splitlinesPy t.data).map stripPy).filter (fun x => !x.isEmpty) = [l] →
      containsSub "$".data l = false →
      hasPerMi l = false →
      anyAmountOk l = true →
      parse_flex_rate_rpm t =
        some (if (to_dec l).leDec RPM_DECISION_MAX then (none, some (to_dec l))
              else (some (to_dec l), none))) ∧
    parse_flex_rate_rpm "18" = some (none, some ⟨18, 0⟩) ∧
    (flexPercents.map (flexChunk none (some ⟨18, 0⟩))).head? =
      some ("10% AI $19.80/mi".data ++ '\n' :: ("19.80 ".data ++ RATE_REASON)) := by
  refine ⟨?_, by decide, by decide⟩
  intro t l hl _ hpm hok
  unfold parse_flex_rate_rpm
  rw [hl]
  dsimp only
  by_cases hle : (to_dec l).leDec RPM_DECISION_MAX = true
  · simp [hpm, hok, hle]
  · simp [hpm, hok, hle]

theorem c6_bare_number_threshold_witness :
    parse_flex_rate_rpm "18" =
      some (if (to_dec "18".data).leDec RPM_DECISION_MAX
            then (none, some (to_dec "18".data))
            else (some (to_dec "18".data), none)) :=
  c6_bare_number_threshold.1 "18" "18".data (by decide) (by decide) (by decide)
    (by decide)

set_option maxHeartbeats 2000000 in
/-- C7: on the original message `💰 𝗥𝗮𝘁𝗲: $500.00` / `🚛 Trip: 250.00mi`
the reply `Add 50` produces the adjusted text whose rate line shows
`$550.00` and which carries a synthesized per-distance line showing
`$2.20/mi` (new rate 500 + 50 = 550, per-distance 550 / 250 = 2.20, each
half-up rounded to two fractional digits). -/
theorem c7_add50_scenario :
    add_minus_reply "💰 𝗥𝗮𝘁𝗲: $500.00\n🚛 Trip: 250.00mi" "Add 50" =
      some "💰 𝗥𝗮𝘁𝗲: $550.00\n 💰 𝗣𝗲𝗿 𝗺𝗶𝗹𝗲: $2.20/mi\n🚛 Trip: 250.00mi" := by
  decide

/-- C8: rewriting a text on which the Rate Rewriter succeeds with the
rate and per-distance values the text already displays — its rate line's
first dollar amount is exactly the rendering of `r`, and its per-mile
line carries a literal `/mi` and a first dollar amount exactly the
rendering of `p` — reproduces the text byte for byte (no trailing
newline, so line splitting and rejoining are inverse). -/
theorem c8_rewrite_idempotent (t : String) (r p : PyDecimal) (ri pi : Nat)
    (lr lp : List Char)
    (hjoin : joinWith ['\n'] (splitlinesPy t.data) = t.data)
    (hclass : classifyRateLines (splitlinesPy t.data) = (some ri, some pi))
    (hlr : (splitlinesPy t.data)[ri]? = some lr)
    (hlp : (splitlinesPy t.data)[pi]? = some lp)
    (hramt : ∃ a : AmountSpan, firstAmountSpan lr = some a ∧ a.whole = format_money r)
    (hpmi : containsSub "/mi".data lp = true)
    (hpamt : ∃ a : AmountSpan, firstAmountSpan lp = some a ∧ a.whole = format_money p) :
    update_rate_and_rpm_in_text t r p = some t := by
  obtain ⟨ar, har, hwr⟩ := hramt
  obtain ⟨ap2, hap, hwp⟩ := hpamt
  have hrepl_r : replFirstAmount lr (format_money r) = lr := by
    unfold replFirstAmount
    rw [har, ← hwr]
    exact firstAmountSpan_append lr ar har
  have hrepl_p : replFirstAmount lp (format_money p) = lp := by
    unfold replFirstAmount
    rw [hap, ← hwp]
    exact firstAmountSpan_append lp ap2 hap
  have hlineR : lineAt (splitlinesPy t.data) ri = lr := by
    unfold lineAt
    rw [hlr]
    rfl
  have hlineP : lineAt (splitlinesPy t.data) pi = lp := by
    unfold lineAt
    rw [hlp]
    rfl
  have hset1 : setAt ri (replFirstAmount (lineAt (splitlinesPy t.data) ri)
      (format_money r)) (splitlinesPy t.data) = splitlinesPy t.data := by
    rw [hlineR, hrepl_r]
    exact setAt_self _ _ _ hlr
  unfold update_rate_and_rpm_in_text
  dsimp only
  rw [hclass]
  dsimp only
  rw [hset1, hlineP, hpmi, if_pos rfl, hrepl_p, setAt_self _ _ _ hlp, hjoin]

theorem c8_rewrite_idempotent_witness :
    update_rate_and_rpm_in_text "💰 𝗥𝗮𝘁𝗲: $550.00\n 💰 𝗣𝗲𝗿 𝗺𝗶𝗹𝗲: $2.20/mi"
        ⟨550, 0⟩ ⟨22, 1⟩ =
      some "💰 𝗥𝗮𝘁𝗲: $550.00\n 💰 𝗣𝗲𝗿 𝗺𝗶𝗹𝗲: $2.20/mi" :=
  c8_rewrite_idempotent "💰 𝗥𝗮𝘁𝗲: $550.00\n 💰 𝗣𝗲𝗿 𝗺𝗶𝗹𝗲: $2.20/mi"
    ⟨550, 0⟩ ⟨22, 1⟩ 0 1
    "💰 𝗥𝗮𝘁𝗲: $550.00".data " 💰 𝗣𝗲𝗿 𝗺𝗶𝗹𝗲: $2.20/mi".data
    (by decide) (by decide) (by decide) (by decide)
    ⟨⟨"💰 𝗥𝗮𝘁𝗲: ".data, "$550.00".data, "550.00".data, []⟩, by decide, by decide⟩
    (by decide)
    ⟨⟨" 💰 𝗣𝗲𝗿 𝗺𝗶𝗹𝗲: ".data, "$2.20".data, "2.20".data, "/mi".data⟩, by decide,
      by decide⟩

/-- C9: with the valid-candidate set unchanged between the two actions
(same pending pickup instant, same `now` and minimum delay), toggling
the same lead-time candidate twice returns the state — the stored
selection set in particular — to exactly its prior value. -/
theorem c9_toggle_involution (now minDelay : Int) (key : Nat × Nat) (h : Nat)
    (st : BotState) :
    onSel now minDelay key h (onSel now minDelay key h st) = st := by
  cases st with
  | mk pu off sched =>
    by_cases hmem : h ∈ (match pu key with
        | none => OFF_CHOICES
        | some p => available_offsets_for p now minDelay)
    · simp only [onSel, hmem, if_true, if_pos rfl]
      congr 1
      funext k
      by_cases hk : k = key
      · subst hk
        simp [toggleTwice]
      · simp [hk]
    · simp only [onSel, hmem, if_false]

/-- C10: the job registry `SCHEDULED` is keyed by `(chat, origin message)`
alone; a submission with `k > 1` valid selected offsets creates `k` jobs
(one per offset, in descending-offset order), yet the registry ends up
with the single entry for that key holding the fire time written last —
independent of any previously recorded fire time, which is overwritten —
and entries of every other key are untouched. -/
theorem c10_registry_single_entry (now minDelay : Int) (key : Nat × Nat)
    (st : BotState) (pu : Int) (hlast : Nat)
    (hpu : st.pendingPu key = some pu)
    (hk : 1 < (validSelDesc (st.pendingOffsets key)
        (available_offsets_for pu now minDelay)).length)
    (hl : (validSelDesc (st.pendingOffsets key)
        (available_offsets_for pu now minDelay)).getLast? = some hlast) :
    (onSub now minDelay key st).2.length =
      (validSelDesc (st.pendingOffsets key)
        (available_offsets_for pu now minDelay)).length ∧
    (onSub now minDelay key st).1.scheduled key = some (fireAtUtc pu hlast) ∧
    ∀ k', k' ≠ key → (onSub now minDelay key st).1.scheduled k' = st.scheduled k' := by
  have hne : (validSelDesc (st.pendingOffsets key)
      (available_offsets_for pu now minDelay)).isEmpty = false := by
    cases hb : (validSelDesc (st.pendingOffsets key)
        (available_offsets_for pu now minDelay)).isEmpty
    · rfl
    · rw [List.isEmpty_iff] at hb
      rw [hb] at hk
      simp at hk
  unfold onSub
  rw [hpu]
  dsimp only
  rw [hne]
  simp only [Bool.false_eq_true, if_false]
  refine ⟨by simp, ?_, ?_⟩
  · simp only [if_true]
    exact foldl_lastWrite _ _ (hlast, fireAtUtc pu hlast)
      (by rw [List.getLast?_map, hl]; rfl)
  · intro k' hk'
    simp [hk']

theorem c10_registry_single_entry_witness :
    (onSub 0 0 (0, 0)
      ⟨fun _ => some 100000, fun _ => {9, 2}, fun _ => none⟩).1.scheduled (0, 0) =
      some (fireAtUtc 100000 2) :=
  (c10_registry_single_entry 0 0 (0, 0)
    ⟨fun _ => some 100000, fun _ => {9, 2}, fun _ => none⟩ 100000 2
    rfl (by decide) (by decide)).2.1
